import Mathlib

/-!
Shallow embedding of `pyChemometrics/PCAPlotMixin.py` (class `PCAPlotMixin`),
together with theorems checking the specification's claims about it.

Numeric arrays are modelled as `List ℚ` (numpy float arrays, with exact
rational arithmetic standing in for IEEE doubles wherever the code only
adds, subtracts, multiplies, divides and compares).  numpy helpers used by
the code (`np.diff`, `np.where`, `np.min`) are embedded as the corresponding
list operations.
-/

namespace PCAPlot

/-- `np.diff(q)`: the list of successive differences `q[j+1] - q[j]`. -/
def npDiff (q : List ℚ) : List ℚ :=
  (q.zip q.tail).map fun p => p.2 - p.1

/-- `np.where(np.diff(q2) / q2[0:-1] < 0.05)[0]` from `scree_plot`
(PCAPlotMixin.py line 167): the ascending list of indices `j` with
`(q2[j+1] - q2[j]) / q2[j] < 0.05`.  `np.where(c)[0]` on a 1-d boolean
array is the ascending list of indices where the condition holds, which is
`List.range _ |>.filter _` here. -/
def percent_cutoff (q2 : List ℚ) : List ℕ :=
  (List.range (npDiff q2).length).filter fun j =>
    decide ((npDiff q2).getD j 0 / q2.getD j 0 < 1/20)

/-- Observable outcome of the component-selection logic at the end of
`scree_plot` (PCAPlotMixin.py lines 163-175). -/
inductive ScreeReport where
  /-- `plateau + 1` is printed as the component where Q²X stabilizes and a
  vertical line is drawn there (lines 171-174). -/
  | reported : ℕ → ScreeReport
  /-- "Consider exploring a higher level of components" is printed
  (line 169). -/
  | explore : ScreeReport
  /-- The `len(q2) == 2` special case (lines 164-165): a plateau is
  computed but never printed, plotted or returned. -/
  | silent : ScreeReport
  /-- `np.min` is applied to an empty index array, which raises
  `ValueError`. -/
  | valueError : ScreeReport
  deriving DecidableEq, Repr

/-- The component-selection logic of `scree_plot` (PCAPlotMixin.py lines
163-175) as a function of the Q² sequence `q2` (one entry per candidate
component count `1..total_comps`, so `q2.length = total_comps`).

In the `len(q2) == 2` branch the code divides `np.diff(q2)` (one element)
by the scalar `q2[0]`, which coincides with the elementwise division by
`q2[0:-1] = [q2[0]]` of the general branch, so `percent_cutoff` is reused
for both branches. -/
def scree_report (q2 : List ℚ) : ScreeReport :=
  if q2.length = 2 then
    match (percent_cutoff q2).min? with
    | some _ => ScreeReport.silent
    | none => ScreeReport.valueError
  else
    match (percent_cutoff q2).min? with
    | some plateau => ScreeReport.reported (plateau + 1)
    | none => ScreeReport.explore

/-! ### Score plot (`plot_scores`, PCAPlotMixin.py lines 21-104) -/

/-- The per-sample sum `((self.scores[:, comps] ** 2) / t2 ** 2).sum(axis=1)`
from PCAPlotMixin.py line 36, for one score row.  `t2` is the array returned
by `self.hotelling_T2(alpha=0.05, comps=comps)` (line 35), aligned with the
requested components `comps`. -/
def normScoreSum (row : List ℚ) (comps : List ℕ) (t2 : List ℚ) : ℚ :=
  ((comps.zip t2).map fun ct => row.getD ct.1 0 ^ 2 / ct.2 ^ 2).sum

/-- `outlier_idx = np.where(((self.scores[:, comps] ** 2) / t2 ** 2).sum(axis=1) > 1)[0]`
(PCAPlotMixin.py line 36): the ascending list of sample indices whose
normalized squared score sum exceeds 1. -/
def outlier_idx (scores : List (List ℚ)) (comps : List ℕ) (t2 : List ℚ) : List ℕ :=
  (List.range scores.length).filter fun i =>
    decide (1 < normScoreSum (scores.getD i []) comps t2)

/-- Observable outcome of a `plot_scores` call. -/
inductive PlotScoresOutcome where
  /-- The score plot is completed and shown; carries the flagged outlier
  sample indices. -/
  | completed : List ℕ → PlotScoresOutcome
  /-- A `ValueError`/`IndexError` inside the `try` block is caught at
  PCAPlotMixin.py lines 92-95: the invalid-component-selection message is
  printed and a bare `Exception` is raised, so no plot is completed. -/
  | invalidSelection : PlotScoresOutcome
  deriving DecidableEq, Repr

/-- Modelled from the spec: `self.hotelling_T2` (line 35) lives in the
excluded `ChemometricsPCA` class, and the failure of the plotting calls on
a vector critical limit is matplotlib behaviour, so which statement of the
`try` block raises is not visible in src/.  Per the spec (sections 4.1 and
7), requesting more than 2 components or a component index that is not
below the model's component count makes the boundary/score computation
raise (`ValueError`/`IndexError`), which lines 92-95 turn into the
invalid-selection report; an empty selection likewise hits `comps[0]`
(line 42) and raises `IndexError`.  Otherwise the plot completes with the
outlier mask of line 36.  `ncomps` is the model's retained component
count (the number of score columns). -/
def plot_scores_run (ncomps : ℕ) (scores : List (List ℚ)) (comps : List ℕ)
    (t2 : List ℚ) : PlotScoresOutcome :=
  if comps.length = 0 ∨ 2 < comps.length ∨ ∃ c ∈ comps, ncomps ≤ c then
    PlotScoresOutcome.invalidSelection
  else
    PlotScoresOutcome.completed (outlier_idx scores comps t2)

/-! ### Missing-name failure in `scree_plot` / `repeated_cv` -/

/-- The names bound at module level of `pyChemometrics/PCAPlotMixin.py`:
one per imported binding (lines 1-12) plus the class statement itself
(line 14).  `DataConversionWarning` (used at lines 146 and 195) is absent,
and it is not a Python builtin either. -/
def moduleNames : List String :=
  ["ABCMeta", "np", "mpl", "plt", "cm", "Normalize", "sns", "st", "KFold",
   "deepcopy", "PlotMixin", "warnings", "PCAPlotMixin"]

/-- Observable outcome of running the body of `scree_plot` or
`repeated_cv` up to and including its model-fitting loop. -/
structure LoopOutcome where
  /-- The exception class name, if the body raises. -/
  raised : Option String
  /-- How many `currmodel.fit(x)` calls were performed. -/
  fitsPerformed : ℕ
  deriving DecidableEq, Repr

/-- Execution of `scree_plot` (PCAPlotMixin.py lines 142-152) up to the end
of its fitting loop: `warnings.simplefilter(action='ignore',
category=DataConversionWarning)` (line 146) is executed before the loop of
lines 147-152, and evaluating the name `DataConversionWarning` consults the
module's global namespace (CPython name resolution; the name is neither a
local nor a builtin), raising `NameError` if it is unbound. -/
def scree_plot_run (total_comps : ℕ) : LoopOutcome :=
  if moduleNames.contains "DataConversionWarning" then
    { raised := none, fitsPerformed := total_comps }
  else
    { raised := some "NameError", fitsPerformed := 0 }

/-- Execution of `repeated_cv` (PCAPlotMixin.py lines 192-203) up to the
end of its fitting loop: line 195 evaluates `DataConversionWarning` before
the nested loop of lines 197-203, exactly as in `scree_plot_run`. -/
def repeated_cv_run (total_comps repeats : ℕ) : LoopOutcome :=
  if moduleNames.contains "DataConversionWarning" then
    { raised := none, fitsPerformed := total_comps * repeats }
  else
    { raised := some "NameError", fitsPerformed := 0 }

/-! ### Loading plot (`plot_loadings`, PCAPlotMixin.py lines 215-250) -/

/-- The shaded uncertainty region drawn in line mode (PCAPlotMixin.py lines
233-236): lower and upper envelope
`Mean_Loadings ∓ sigma * Stdev_Loadings`, per variable. -/
def loadings_line_band (mean stdev sigma : ℚ) : ℚ × ℚ :=
  (mean - sigma * stdev, mean + sigma * stdev)

/-- The error-bar half-width passed in bar mode (PCAPlotMixin.py line 242):
the code passes `yerr=2 * self.cvParameters['Stdev_Loadings'][:, component]`,
with the literal factor 2 instead of `sigma`. -/
def loadings_bar_yerr (sigma stdev : ℚ) : ℚ := 2 * stdev

/-! ### Repeated cross-validation (`repeated_cv`, PCAPlotMixin.py lines 179-213) -/

/-- `np.zeros((r, c))` (PCAPlotMixin.py line 192). -/
def np_zeros (r c : ℕ) : List (List ℚ) :=
  List.replicate r (List.replicate c 0)

/-- The assignment `q2x[i, j] = v` on a 2-d array. -/
def matrix_set (m : List (List ℚ)) (i j : ℕ) (v : ℚ) : List (List ℚ) :=
  m.set i ((m.getD i []).set j v)

/-- The nested fitting loop of `repeated_cv` (PCAPlotMixin.py lines
197-203), filling `q2x[ncomps - 1, rep] = currmodel.cvParameters['Q2']`.
`fit` and `cross_validation` live in the excluded `ChemometricsPCA` class,
so the Q² value obtained from the trial that refits a fresh deep copy with
`ncomps` components at repeat `rep` is supplied by the oracle
`q2 ncomps rep` (modelled from the spec: each trial is an independent
refit+cross-validate producing one Q² value). -/
def repeated_cv_q2x (total_comps repeats : ℕ) (q2 : ℕ → ℕ → ℚ) : List (List ℚ) :=
  (List.range total_comps).foldl
    (fun m c =>
      (List.range repeats).foldl (fun m' rep => matrix_set m' c rep (q2 (c + 1) rep)) m)
    (np_zeros total_comps repeats)

/-! ### DmodX critical value (`plot_dmodx`, PCAPlotMixin.py lines 252-281) -/

/-- Numerator degrees of freedom `x.shape[1] - self.ncomps - 1` passed to
`st.f.ppf` at PCAPlotMixin.py line 267 (`n` samples, `m` variables,
`ncomps` retained components; Python ints embedded as ℤ). -/
def dmodx_dfn (n m ncomps : ℤ) : ℤ := m - ncomps - 1

/-- Denominator degrees of freedom
`(x.shape[0] - self.ncomps - 1) * (x.shape[1] - self.ncomps)` passed to
`st.f.ppf` at PCAPlotMixin.py line 267. -/
def dmodx_dfd (n m ncomps : ℤ) : ℤ := (n - ncomps - 1) * (m - ncomps)

/-- Modelled from the spec: `st.f.ppf` is scipy's F-distribution quantile
function, outside this repository.  This is the density of the
F distribution with `d1` and `d2` degrees of freedom: zero on the
nonpositive reals and
`(d1/d2)^(d1/2) * t^(d1/2-1) * (1 + d1*t/d2)^(-(d1+d2)/2) / B(d1/2, d2/2)`
for `t > 0`, with `B(a, b) = Γ(a)Γ(b)/Γ(a+b)`. -/
noncomputable def fPdf (d1 d2 t : ℝ) : ℝ :=
  if t ≤ 0 then 0
  else
    (d1 / d2) ^ (d1 / 2) * t ^ (d1 / 2 - 1) * (1 + d1 * t / d2) ^ (-((d1 + d2) / 2)) /
      (Real.Gamma (d1 / 2) * Real.Gamma (d2 / 2) / Real.Gamma ((d1 + d2) / 2))

/-- Modelled from the spec: the cumulative distribution function of the
F distribution with `d1` and `d2` degrees of freedom, as the integral of
its density.  `st.f.ppf(p, d1, d2)` returns a critical value `q` with
`fCdf d1 d2 q = p`. -/
noncomputable def fCdf (d1 d2 x : ℝ) : ℝ :=
  ∫ t in (0:ℝ)..x, fPdf d1 d2 t

/-! ### Receiver state of `scree_plot` / `repeated_cv` (frame condition) -/

/-- The model attributes of the receiver that PCAPlotMixin methods read
(spec section 6). -/
structure PCAState where
  ncomps : ℕ
  scores : List (List ℚ)
  loadings : List (List ℚ)
  modelParameters : List (String × ℚ)
  cvParameters : List (String × ℚ)

/-- The fitting loop of `scree_plot` (PCAPlotMixin.py lines 147-152) in a
state-passing embedding: each iteration builds `currmodel = deepcopy(self)`
(an independent value), sets `currmodel.ncomps = ncomps`, applies the
excluded-class methods `fit` then `cross_validation` (modelled from the
spec as arbitrary state transformers of the object they are invoked on),
and appends the result to `models`.  Returns the receiver together with
the list of fitted copies. -/
def scree_fit_loop (fit cv : PCAState → PCAState) (self : PCAState)
    (total_comps : ℕ) : PCAState × List PCAState :=
  (List.range total_comps).foldl
    (fun acc n =>
      (acc.1, acc.2 ++ [cv (fit { acc.1 with ncomps := n + 1 })]))
    (self, [])

/-- The nested fitting loop of `repeated_cv` (PCAPlotMixin.py lines
197-203) in the same state-passing embedding; `q2of` reads
`currmodel.cvParameters['Q2']` from a fitted copy.  Returns the receiver
together with the collected Q² values. -/
def repeated_cv_fit_loop (fit cv : PCAState → PCAState) (q2of : PCAState → ℚ)
    (self : PCAState) (total_comps repeats : ℕ) : PCAState × List ℚ :=
  (List.range total_comps).foldl
    (fun acc n =>
      (List.range repeats).foldl
        (fun acc' _rep =>
          (acc'.1, acc'.2 ++ [q2of (cv (fit { acc'.1 with ncomps := n + 1 }))]))
        acc)
    (self, [])

/-! ### Theorems -/

lemma npDiff_length (q : List ℚ) : (npDiff q).length = q.length - 1 := by
  simp [npDiff, List.length_zip, List.length_tail]

lemma npDiff_getD (q : List ℚ) (j : ℕ) (h : j + 1 < q.length) :
    (npDiff q).getD j 0 = q.getD (j + 1) 0 - q.getD j 0 := by
  have hj : j < (npDiff q).length := by
    rw [npDiff_length]; omega
  have hzip : j < (q.zip q.tail).length := by
    simpa [npDiff] using hj
  have h1 : j < q.length := by omega
  have h2 : j < q.tail.length := by
    rw [List.length_tail]; omega
  rw [List.getD_eq_getElem _ _ hj, List.getD_eq_getElem _ _ h1,
    List.getD_eq_getElem _ _ h]
  simp [npDiff, List.getElem_zip, List.getElem_tail]

lemma min?_filter_range_eq_some {p : ℕ → Bool} {n j : ℕ} :
    ((List.range n).filter p).min? = some j ↔
      j < n ∧ p j = true ∧ ∀ i < j, ¬ p i = true := by
  rw [List.min?_eq_some_iff (le_refl) (fun a b => by omega) (fun a b c => by omega)]
  constructor
  · rintro ⟨hmem, hmin⟩
    rw [List.mem_filter, List.mem_range] at hmem
    refine ⟨hmem.1, hmem.2, fun i hij hpi => ?_⟩
    have : j ≤ i := hmin i (by rw [List.mem_filter, List.mem_range]; exact ⟨by omega, hpi⟩)
    omega
  · rintro ⟨hjn, hpj, hmin⟩
    refine ⟨by rw [List.mem_filter, List.mem_range]; exact ⟨hjn, hpj⟩, fun b hb => ?_⟩
    rw [List.mem_filter, List.mem_range] at hb
    by_contra hlt
    exact hmin b (by omega) hb.2

lemma min?_filter_range_eq_none {p : ℕ → Bool} {n : ℕ} :
    ((List.range n).filter p).min? = none ↔ ∀ i < n, ¬ p i = true := by
  rw [List.min?_eq_none_iff, List.filter_eq_nil_iff]
  constructor
  · intro h i hi
    exact h i (List.mem_range.mpr hi)
  · intro h i hi
    exact h i (List.mem_range.mp hi)

/-- C1: whenever the scree-plot logic reports a plateau, the reported
component index `i` is at least 1 and is the smallest index `i ≥ 1` of the
Q² sequence with `(Q²[i] - Q²[i-1]) / Q²[i-1] < 0.05`; that index is the
recommended stopping component. -/
theorem scree_plateau_is_smallest (q2 : List ℚ) (i : ℕ)
    (h : scree_report q2 = ScreeReport.reported i) :
    1 ≤ i ∧ i < q2.length ∧
      (q2.getD i 0 - q2.getD (i - 1) 0) / q2.getD (i - 1) 0 < 1/20 ∧
      ∀ j, 1 ≤ j → j < i →
        ¬ ((q2.getD j 0 - q2.getD (j - 1) 0) / q2.getD (j - 1) 0 < 1/20) := by
  unfold scree_report at h
  split at h
  · split at h <;> simp_all
  · split at h
    next plateau hmin =>
      unfold percent_cutoff at hmin
      rw [min?_filter_range_eq_some] at hmin
      obtain ⟨hlt, hcond, hminimal⟩ := hmin
      have hi : i = plateau + 1 := by
        cases h; rfl
      subst hi
      have hlen : plateau + 1 < q2.length := by
        rw [npDiff_length] at hlt; omega
      refine ⟨by omega, hlen, ?_, ?_⟩
      · rw [decide_eq_true_eq, npDiff_getD q2 plateau hlen] at hcond
        simpa using hcond
      · intro j hj1 hji hjcond
        have hjlt : j - 1 < plateau := by omega
        have hjlen : (j - 1) + 1 < q2.length := by omega
        apply hminimal (j - 1) hjlt
        rw [decide_eq_true_eq, npDiff_getD q2 (j - 1) hjlen]
        have hj : j - 1 + 1 = j := by omega
        rw [hj]
        exact hjcond
    next => simp_all

/-- C1 witness: on the Q² sequence `[0.50, 0.80, 0.83]` the scree-plot
logic reports plateau component 2, and 2 is the smallest index whose
relative Q² improvement is below 5%. -/
theorem scree_plateau_is_smallest_witness :
    scree_report [1/2, 4/5, 83/100] = ScreeReport.reported 2 ∧
      (1 ≤ 2 ∧ 2 < ([1/2, 4/5, 83/100] : List ℚ).length ∧
        (([1/2, 4/5, 83/100] : List ℚ).getD 2 0 -
            ([1/2, 4/5, 83/100] : List ℚ).getD 1 0) /
            ([1/2, 4/5, 83/100] : List ℚ).getD 1 0 < 1/20 ∧
        ∀ j, 1 ≤ j → j < 2 →
          ¬ ((([1/2, 4/5, 83/100] : List ℚ).getD j 0 -
              ([1/2, 4/5, 83/100] : List ℚ).getD (j - 1) 0) /
              ([1/2, 4/5, 83/100] : List ℚ).getD (j - 1) 0 < 1/20)) :=
  have hrep : scree_report [1/2, 4/5, 83/100] = ScreeReport.reported 2 := by
    norm_num [scree_report, percent_cutoff, npDiff, List.range_succ,
      List.filter_append, List.filter_cons, List.min?]
  ⟨hrep, scree_plateau_is_smallest [1/2, 4/5, 83/100] 2 hrep⟩

/-- C5: at `total_comps = 2` with Q² = `[0.50, 0.80]` no index satisfies
the plateau criterion (the only relative improvement is 60% ≥ 5%), and the
scree-plot logic of PCAPlotMixin.py lines 163-175 raises `ValueError`
(`np.min` of an empty index array, line 165) instead of reporting that a
higher number of components should be explored and terminating normally. -/
theorem scree_len2_no_cutoff_raises :
    percent_cutoff [1/2, 4/5] = [] ∧
      scree_report [1/2, 4/5] = ScreeReport.valueError ∧
      scree_report [1/2, 4/5] ≠ ScreeReport.explore := by
  have h1 : percent_cutoff [1/2, 4/5] = [] := by
    norm_num [percent_cutoff, npDiff, List.range_succ, List.filter_append,
      List.filter_cons]
  have h2 : scree_report [1/2, 4/5] = ScreeReport.valueError := by
    norm_num [scree_report, h1, List.min?]
  exact ⟨h1, h2, by rw [h2]; decide⟩

/-- C4: every call to `scree_plot` and every call to `repeated_cv` raises
`NameError` before any model is fit: the name `DataConversionWarning`,
evaluated by the `warnings.simplefilter` call that precedes each fitting
loop, is bound nowhere in the module. -/
theorem scree_and_repeated_cv_raise_nameerror (total_comps repeats : ℕ) :
    "DataConversionWarning" ∉ moduleNames ∧
      (scree_plot_run total_comps).raised = some "NameError" ∧
      (scree_plot_run total_comps).fitsPerformed = 0 ∧
      (repeated_cv_run total_comps repeats).raised = some "NameError" ∧
      (repeated_cv_run total_comps repeats).fitsPerformed = 0 := by
  have h : "DataConversionWarning" ∉ moduleNames := by decide
  refine ⟨h, ?_, ?_, ?_, ?_⟩ <;> simp [scree_plot_run, repeated_cv_run, h]

/-- C3: requesting three or more components in `plot_scores`, or any
component index that is not below the model's component count, produces
the invalid-component-selection report and aborts with an exception; in
particular no completed plot (with any outlier set) is produced. -/
theorem plot_scores_invalid_selection (ncomps : ℕ) (scores : List (List ℚ))
    (comps : List ℕ) (t2 : List ℚ)
    (h : 3 ≤ comps.length ∨ ∃ c ∈ comps, ncomps ≤ c) :
    plot_scores_run ncomps scores comps t2 = PlotScoresOutcome.invalidSelection ∧
      ∀ out, plot_scores_run ncomps scores comps t2 ≠ PlotScoresOutcome.completed out := by
  have hcond : comps.length = 0 ∨ 2 < comps.length ∨ ∃ c ∈ comps, ncomps ≤ c := by
    rcases h with h | h
    · exact Or.inr (Or.inl (by omega))
    · exact Or.inr (Or.inr h)
  rw [plot_scores_run, if_pos hcond]
  exact ⟨rfl, fun out => by simp⟩

/-- C3 witness: `comps = [0, 1, 2]` on a 2-component model is both too
long and out of range, and the call aborts with the
invalid-component-selection report. -/
theorem plot_scores_invalid_selection_witness :
    (3 ≤ ([0, 1, 2] : List ℕ).length ∨ ∃ c ∈ ([0, 1, 2] : List ℕ), 2 ≤ c) ∧
      (plot_scores_run 2 [] [0, 1, 2] [] = PlotScoresOutcome.invalidSelection ∧
        ∀ out, plot_scores_run 2 [] [0, 1, 2] [] ≠ PlotScoresOutcome.completed out) :=
  ⟨by decide, plot_scores_invalid_selection 2 [] [0, 1, 2] [] (by decide)⟩

/-- C2: for a 2-component selection, a sample index is flagged as an
outlier by `plot_scores` exactly when its normalized squared score sum
over the two selected components — score²/t2² summed over both — is
strictly greater than 1. -/
theorem outliers_two_comps (scores : List (List ℚ)) (c1 c2 : ℕ) (a b : ℚ)
    (i : ℕ) :
    i ∈ outlier_idx scores [c1, c2] [a, b] ↔
      i < scores.length ∧
        1 < (scores.getD i []).getD c1 0 ^ 2 / a ^ 2 +
            (scores.getD i []).getD c2 0 ^ 2 / b ^ 2 := by
  simp [outlier_idx, normScoreSum, List.mem_filter, List.mem_range]

/-- C8: for a 1-component selection with a strictly positive T² boundary,
a sample is flagged as an outlier by `plot_scores` exactly when the
absolute value of its score on that component strictly exceeds the
boundary (the ±t2 critical lines drawn at PCAPlotMixin.py lines 88-89). -/
theorem outliers_one_comp (scores : List (List ℚ)) (c : ℕ) (t2 : ℚ) (i : ℕ)
    (h : 0 < t2) :
    i ∈ outlier_idx scores [c] [t2] ↔
      i < scores.length ∧ t2 < |(scores.getD i []).getD c 0| := by
  have ht2 : (0:ℚ) < t2 ^ 2 := by positivity
  rw [outlier_idx, List.mem_filter, List.mem_range, decide_eq_true_eq]
  have hsum : normScoreSum (scores.getD i []) [c] [t2] =
      (scores.getD i []).getD c 0 ^ 2 / t2 ^ 2 := by
    simp [normScoreSum]
  rw [hsum, one_lt_div ht2, ← sq_abs t2, ← sq_abs ((scores.getD i []).getD c 0),
    sq_lt_sq, abs_abs, abs_abs, abs_of_pos h]

/-- C8 witness: with scores `[[3], [-1]]`, one selected component and
boundary `t2 = 2`, sample 0 (score 3, |3| > 2) is flagged and sample 1
(score -1, |-1| ≤ 2) is not. -/
theorem outliers_one_comp_witness :
    (0 : ℚ) < 2 ∧
      ((0 ∈ outlier_idx [[(3 : ℚ)], [-1]] [0] [2] ↔
        0 < ([[(3 : ℚ)], [-1]] : List (List ℚ)).length ∧
          (2 : ℚ) < |(([[(3 : ℚ)], [-1]] : List (List ℚ)).getD 0 []).getD 0 0|) ∧
      (1 ∈ outlier_idx [[(3 : ℚ)], [-1]] [0] [2] ↔
        1 < ([[(3 : ℚ)], [-1]] : List (List ℚ)).length ∧
          (2 : ℚ) < |(([[(3 : ℚ)], [-1]] : List (List ℚ)).getD 1 []).getD 0 0|)) :=
  ⟨by norm_num,
    outliers_one_comp [[(3 : ℚ)], [-1]] 0 2 0 (by norm_num),
    outliers_one_comp [[(3 : ℚ)], [-1]] 0 2 1 (by norm_num)⟩

/-- C6: the claim fails in bar mode: `plot_loadings` passes error bars of
half-width `2 * stdev` regardless of `sigma` (PCAPlotMixin.py line 242),
so at `sigma = 3`, `stdev = 1` the error-bar half-width is 2, not
`3 * 1`; the line-mode shaded region (lines 233-236) does span
`mean ± sigma * stdev` as claimed. -/
theorem plot_loadings_bar_ignores_sigma :
    loadings_bar_yerr 3 1 = 2 ∧ loadings_bar_yerr 3 1 ≠ 3 * 1 ∧
      loadings_line_band 0 1 3 = (-3, 3) := by
  refine ⟨by norm_num [loadings_bar_yerr], by norm_num [loadings_bar_yerr],
    by norm_num [loadings_line_band]⟩

lemma row_fold_length (l : List ℕ) (v : ℕ → ℚ) (row : List ℚ) :
    (l.foldl (fun r rep => r.set rep (v rep)) row).length = row.length := by
  induction l generalizing row with
  | nil => rfl
  | cons x xs ih => simp [ih]

lemma row_fold_getElem? (l : List ℕ) (v : ℕ → ℚ) (row : List ℚ) (k : ℕ)
    (hl : ∀ rep ∈ l, rep < row.length) :
    (l.foldl (fun r rep => r.set rep (v rep)) row)[k]? =
      if k ∈ l then some (v k) else row[k]? := by
  induction l generalizing row with
  | nil => simp
  | cons x xs ih =>
    rw [List.foldl_cons, ih _ (fun rep hrep => by
      rw [List.length_set]; exact hl rep (List.mem_cons_of_mem _ hrep))]
    by_cases hk : k ∈ xs
    · simp [hk]
    · by_cases hkx : k = x
      · subst hkx
        simp [hk, List.getElem?_set_self (hl k (List.mem_cons_self _ _))]
      · simp [hk, hkx, List.getElem?_set_ne (Ne.symm hkx)]

lemma set_getD_self (m : List (List ℚ)) (c : ℕ) :
    m.set c (m.getD c []) = m := by
  apply List.ext_getElem?
  intro k
  rw [List.getElem?_set]
  split
  next h =>
    subst h
    split
    next hlt =>
      rw [List.getD_eq_getElem?_getD, List.getElem?_eq_getElem hlt]
      rfl
    next hge => exact (List.getElem?_eq_none (by omega)).symm
  next => rfl

lemma matrix_set_length (m : List (List ℚ)) (i j : ℕ) (v : ℚ) :
    (matrix_set m i j v).length = m.length := by
  simp [matrix_set]

lemma inner_loop_eq_set (l : List ℕ) (c : ℕ) (w : ℕ → ℚ) (m : List (List ℚ))
    (hc : c < m.length) :
    l.foldl (fun m' rep => matrix_set m' c rep (w rep)) m =
      m.set c (l.foldl (fun row rep => row.set rep (w rep)) (m.getD c [])) := by
  induction l generalizing m with
  | nil => exact (set_getD_self m c).symm
  | cons x xs ih =>
    rw [List.foldl_cons, List.foldl_cons]
    have hc' : c < (matrix_set m c x (w x)).length := by
      rw [matrix_set_length]; exact hc
    rw [ih _ hc']
    unfold matrix_set
    rw [List.set_set]
    congr 1
    rw [List.getD_eq_getElem?_getD, List.getElem?_set_self hc]
    rfl

lemma outer_loop_getElem? (l : List ℕ) (R : ℕ) (q2 : ℕ → ℕ → ℚ)
    (m : List (List ℚ)) (hl : ∀ c ∈ l, c < m.length) (hnd : l.Nodup) (k : ℕ) :
    (l.foldl
        (fun mm c =>
          (List.range R).foldl (fun m' rep => matrix_set m' c rep (q2 (c + 1) rep)) mm)
        m)[k]? =
      if k ∈ l then
        some ((List.range R).foldl (fun row rep => row.set rep (q2 (k + 1) rep))
          (m.getD k []))
      else m[k]? := by
  induction l generalizing m with
  | nil => simp
  | cons c l' ih =>
    rw [List.foldl_cons,
      inner_loop_eq_set _ _ _ _ (hl c (List.mem_cons_self _ _))]
    have hcl' : c ∉ l' := (List.nodup_cons.mp hnd).1
    rw [ih _ (fun d hd => by
        rw [List.length_set]; exact hl d (List.mem_cons_of_mem _ hd))
      (List.nodup_cons.mp hnd).2]
    by_cases hk : k ∈ l'
    · have hkc : k ≠ c := fun h => hcl' (h ▸ hk)
      have hgd : ∀ r : List ℚ, (m.set c r).getD k [] = m.getD k [] := by
        intro r
        rw [List.getD_eq_getElem?_getD, List.getElem?_set_ne (Ne.symm hkc),
          ← List.getD_eq_getElem?_getD]
      rw [hgd]
      simp [hk]
    · by_cases hkc : k = c
      · subst hkc
        simp only [hk, if_false, List.mem_cons, true_or, if_true]
        exact List.getElem?_set_self (hl k (List.mem_cons_self _ _))
      · rw [List.getElem?_set_ne (fun h => hkc h.symm)]
        simp [hk, hkc]

lemma repeated_cv_q2x_length (T R : ℕ) (q2 : ℕ → ℕ → ℚ) :
    (repeated_cv_q2x T R q2).length = T := by
  unfold repeated_cv_q2x
  have : ∀ (l : List ℕ) (m : List (List ℚ)),
      (l.foldl
        (fun mm c =>
          (List.range R).foldl (fun m' rep => matrix_set m' c rep (q2 (c + 1) rep)) mm)
        m).length = m.length := by
    intro l
    induction l with
    | nil => intro m; rfl
    | cons c l' ih =>
      intro m
      rw [List.foldl_cons, ih]
      have : ∀ (r : List ℕ) (mm : List (List ℚ)),
          (r.foldl (fun m' rep => matrix_set m' c rep (q2 (c + 1) rep)) mm).length
            = mm.length := by
        intro r
        induction r with
        | nil => intro mm; rfl
        | cons a r' ihr =>
          intro mm
          rw [List.foldl_cons, ihr, matrix_set_length]
      exact this _ m
  rw [this, np_zeros, List.length_replicate]

/-- C7: the matrix built by the nested loop of `repeated_cv` has exactly
`total_comps` rows of `repeats` entries each, and the entry at row
`c - 1`, column `rep` is the Q² value produced by the trial that refits a
fresh copy with `c` components at repeat `rep`.  (All entries are
rationals of the oracle, hence finite.) -/
theorem repeated_cv_matrix_spec (T R : ℕ) (q2 : ℕ → ℕ → ℚ) :
    (repeated_cv_q2x T R q2).length = T ∧
      (∀ c, c < T → ((repeated_cv_q2x T R q2).getD c []).length = R) ∧
      ∀ c rep, c < T → rep < R →
        ((repeated_cv_q2x T R q2).getD c []).getD rep 0 = q2 (c + 1) rep := by
  have hrow : ∀ c, c < T → (repeated_cv_q2x T R q2).getD c [] =
      (List.range R).foldl (fun row rep => row.set rep (q2 (c + 1) rep))
        (List.replicate R 0) := by
    intro c hc
    unfold repeated_cv_q2x
    rw [List.getD_eq_getElem?_getD,
      outer_loop_getElem? _ _ _ _ (fun d hd => by
          rw [np_zeros, List.length_replicate]; exact List.mem_range.mp hd)
        (List.nodup_range T) c]
    rw [if_pos (List.mem_range.mpr hc)]
    have : (np_zeros T R).getD c [] = List.replicate R 0 := by
      rw [np_zeros, List.getD_eq_getElem?_getD, List.getElem?_replicate,
        if_pos hc]
      rfl
    rw [this]
    rfl
  refine ⟨repeated_cv_q2x_length T R q2, ?_, ?_⟩
  · intro c hc
    rw [hrow c hc, row_fold_length, List.length_replicate]
  · intro c rep hc hrep
    rw [hrow c hc, List.getD_eq_getElem?_getD,
      row_fold_getElem? _ _ _ _ (fun r hr => by
        rw [List.length_replicate]; exact List.mem_range.mp hr),
      if_pos (List.mem_range.mpr hrep)]
    rfl

/-- C7 witness: with `total_comps = 2`, `repeats = 2` and the oracle
`q2 c rep = c + rep`, the matrix is 2×2 and the entry at row 1, column 0
is the Q² of the trial with 2 components at repeat 0. -/
theorem repeated_cv_matrix_spec_witness :
    (repeated_cv_q2x 2 2 (fun c rep => (c : ℚ) + rep)).length = 2 ∧
      ((repeated_cv_q2x 2 2 (fun c rep => (c : ℚ) + rep)).getD 1 []).length = 2 ∧
      ((repeated_cv_q2x 2 2 (fun c rep => (c : ℚ) + rep)).getD 1 []).getD 0 0 =
        (2 : ℚ) + 0 :=
  ⟨(repeated_cv_matrix_spec 2 2 (fun c rep => (c : ℚ) + rep)).1,
    (repeated_cv_matrix_spec 2 2 (fun c rep => (c : ℚ) + rep)).2.1 1 (by norm_num),
    (repeated_cv_matrix_spec 2 2 (fun c rep => (c : ℚ) + rep)).2.2 1 0
      (by norm_num) (by norm_num)⟩

/-- C9: `plot_dmodx` calls `st.f.ppf(1 - alpha, dfn, dfd)` with
`dfn = m - ncomps - 1` and `dfd = (n - ncomps - 1) * (m - ncomps)`
(PCAPlotMixin.py line 267), and for `0 < alpha < 1` every value whose
F-distribution CDF at those degrees of freedom reaches `1 - alpha` — in
particular the returned critical value — is strictly positive. -/
theorem dmodx_dcrit_pos (alpha : ℝ) (n m ncomps : ℤ)
    (h1 : 0 < alpha) (h2 : alpha < 1)
    (hdfn : 0 < dmodx_dfn n m ncomps) (hdfd : 0 < dmodx_dfd n m ncomps) :
    {q : ℝ |
        1 - alpha ≤ fCdf (dmodx_dfn n m ncomps) (dmodx_dfd n m ncomps) q} ⊆
      Set.Ioi 0 := by
  intro q hq
  simp only [Set.mem_setOf_eq] at hq
  by_contra hq0
  simp only [Set.mem_Ioi, not_lt] at hq0
  have hzero :
      fCdf (dmodx_dfn n m ncomps) (dmodx_dfd n m ncomps) q = 0 := by
    unfold fCdf
    have heq : Set.EqOn
        (fPdf (dmodx_dfn n m ncomps) (dmodx_dfd n m ncomps)) (fun _ => 0)
        (Set.uIcc 0 q) := by
      intro t ht
      have ht0 : t ≤ 0 := by
        rcases Set.mem_uIcc.mp ht with h | h
        · exact le_trans h.2 hq0
        · exact h.2
      simp [fPdf, ht0]
    rw [intervalIntegral.integral_congr heq]
    simp
  rw [hzero] at hq
  linarith

/-- C9 witness: with alpha = 0.05 and `n = 20` samples, `m = 10`
variables, `ncomps = 2` components, both degrees of freedom are positive
and every candidate critical value at level 0.95 is strictly positive. -/
theorem dmodx_dcrit_pos_witness :
    (0 : ℝ) < 1/20 ∧ (1/20 : ℝ) < 1 ∧
      0 < dmodx_dfn 20 10 2 ∧ 0 < dmodx_dfd 20 10 2 ∧
      {q : ℝ | 1 - 1/20 ≤ fCdf (dmodx_dfn 20 10 2) (dmodx_dfd 20 10 2) q} ⊆
        Set.Ioi 0 :=
  ⟨by norm_num, by norm_num, by norm_num [dmodx_dfn], by norm_num [dmodx_dfd],
    dmodx_dcrit_pos (1/20) 20 10 2 (by norm_num) (by norm_num)
      (by norm_num [dmodx_dfn]) (by norm_num [dmodx_dfd])⟩

lemma foldl_fst_const {α β γ : Type} (g : α × β → γ → β) (l : List γ)
    (p : α × β) :
    (l.foldl (fun acc x => (acc.1, g acc x)) p).1 = p.1 := by
  induction l generalizing p with
  | nil => rfl
  | cons x xs ih => exact ih (p.1, g p x)

lemma repeated_cv_outer_fst (fit cv : PCAState → PCAState)
    (q2of : PCAState → ℚ) (R : ℕ) (l : List ℕ) (p : PCAState × List ℚ) :
    (l.foldl
        (fun acc n =>
          (List.range R).foldl
            (fun acc' _rep =>
              (acc'.1, acc'.2 ++ [q2of (cv (fit { acc'.1 with ncomps := n + 1 }))]))
            acc)
        p).1 = p.1 := by
  induction l generalizing p with
  | nil => rfl
  | cons x xs ih =>
    rw [List.foldl_cons, ih, foldl_fst_const]

/-- C10: for arbitrary behaviour of the excluded `fit` and
`cross_validation` methods, the fitting loops of `scree_plot` and
`repeated_cv` leave the receiver model's state (its `ncomps`, `scores`,
`loadings`, `modelParameters`, `cvParameters`) unchanged: every trial acts
on an independent deep copy, never on the receiver. -/
theorem scree_repeated_cv_receiver_unchanged (fit cv : PCAState → PCAState)
    (q2of : PCAState → ℚ) (self : PCAState) (total_comps repeats : ℕ) :
    (scree_fit_loop fit cv self total_comps).1 = self ∧
      (repeated_cv_fit_loop fit cv q2of self total_comps repeats).1 = self := by
  constructor
  · unfold scree_fit_loop
    exact foldl_fst_const _ _ _
  · unfold repeated_cv_fit_loop
    exact repeated_cv_outer_fst fit cv q2of repeats (List.range total_comps) _

end PCAPlot
